import Mathlib

/-!
Verification development for `src/cpa_scraper.py` (CPA Ontario member
directory scraper).  The Python program drives a headless browser over a
paginated table; we shallowly embed the pure decision logic of its
functions over an explicit model of the DOM state the program reads:

* `Row`    — one `<tr>`: the optional header cell text (`th`, as returned
  by `inner_text()` before `.strip()`) and the data cell texts (`td`s).
* `Page`   — the queryable state of the page at one instant:
  whether `table.slds-table` is present, its body rows, and the result of
  querying the Next button (its `class` attribute and native disabled flag).
* `PageDyn` — the page handle across a click: the state at call time
  (`current`) and the state observed `t` milliseconds after the click
  (`postClick t`); the blocking waits of the code are folded into which
  instant each read observes.
* `RunWorld` — the environment of a whole run: per-page-number dynamics,
  plus an optional page number whose extraction raises an unexpected
  (non-Timeout) error, modelling the exceptions that `extract_table_data`
  does not catch and that propagate to `main`'s top-level handler.

Fallible Python steps are embedded in `Except`: `handle_pagination`'s body
is `handlePaginationRun` and the function itself is the body with the
source's `except Exception` handler applied.  The embedding additionally
returns, as a ghost trace, the read instants at which
`verify_table_update` is invoked, so that theorems can count verification
passes; `handle_pagination` itself projects the trace away.
-/

namespace CpaScraper

/-- One extracted directory entry: the Python dict with keys
`Member Name`, `Designations`, `Employer`, `Employer City`. -/
structure MemberRecord where
  memberName : String
  designations : String
  employer : String
  employerCity : String
deriving DecidableEq

/-- One table body row: header cell text (if a `th` element exists) and
the data cell texts, all as raw `inner_text()` results. -/
structure Row where
  th : Option String
  tds : List String
deriving DecidableEq

/-- The Next button as the code sees it: its `class` attribute
(`get_attribute` may return nothing) and the native disabled flag. -/
structure Button where
  classAttr : Option String
  disabled : Bool
deriving DecidableEq

/-- The queryable page state at one instant. -/
structure Page where
  tablePresent : Bool
  rows : List Row
  nextButton : Option Button
deriving DecidableEq

/-- The page handle across a Next click: state at call time and state
observed `t` milliseconds after the click. -/
structure PageDyn where
  current : Page
  postClick : Nat → Page

/-- Environment of one run of `main`: dynamics of the page for each
page number, and an optional page number at which extraction raises an
unexpected error (propagating to `main`'s top-level handler). -/
structure RunWorld where
  pages : Nat → PageDyn
  crashAt : Option Nat

/-- Drop leading whitespace characters. -/
def dropWs : List Char → List Char
  | [] => []
  | c :: cs => if c.isWhitespace then dropWs cs else c :: cs

/-- Python `str.strip()`: drop leading and trailing whitespace. -/
def pyStrip (s : String) : String :=
  ⟨(dropWs (dropWs s.toList).reverse).reverse⟩

/-- Python row predicate from `extract_table_data`: the row is read
successfully (a `th` exists) and it has at least 3 data cells. -/
def qualRow (r : Row) : Bool :=
  r.th.isSome && decide (3 ≤ r.tds.length)

/-- Loop body of `extract_table_data` (lines 30-43): reading the `th` of
a row without one raises, the per-row handler skips the row; rows with
fewer than 3 `td`s append nothing; otherwise one record is built from the
stripped texts. -/
def rowRecord (r : Row) : Option MemberRecord :=
  match r.th with
  | none => none
  | some rawName =>
    if 3 ≤ r.tds.length then
      some { memberName := pyStrip rawName
             designations := pyStrip (r.tds.getD 0 "")
             employer := pyStrip (r.tds.getD 1 "")
             employerCity := pyStrip (r.tds.getD 2 "") }
    else none

/-- `extract_table_data` (lines 21-48): if `table.slds-table` never
appears the `TimeoutError` handler returns `[]`; otherwise every body row
is processed by the per-row loop. -/
def extract_table_data (p : Page) : List MemberRecord :=
  if p.tablePresent then p.rows.filterMap rowRecord else []

/-- Number of qualifying rows of a page (0 when the table is absent). -/
def qualCount (p : Page) : Nat :=
  if p.tablePresent then p.rows.countP (fun r => qualRow r) else 0

/-- `page.query_selector("table.slds-table tbody tr")`: the first body
row, or nothing when the table (or any row) is absent. -/
def firstRowQuery (p : Page) : Option Row :=
  if p.tablePresent then p.rows.head? else none

/-- The freshly read first-row fingerprint: the stripped `th` text of the
first row, when a first row with a header cell exists. -/
def pageFingerprint (p : Page) : Option String :=
  match firstRowQuery p with
  | none => none
  | some row =>
    match row.th with
    | none => none
    | some txt => some (pyStrip txt)

/-- `verify_table_update` (lines 66-92): no first row means "not
updated"; a missing `th` raises and the handler returns `False`;
otherwise report a change exactly when the stripped text differs from
`previous_first_member`.  The page argument is the state observed after
the function's internal 2-second wait. -/
def verify_table_update (p : Page) (previous_first_member : String) : Bool :=
  match firstRowQuery p with
  | none => false
  | some row =>
    match row.th with
    | none => false
    | some txt => if pyStrip txt ≠ previous_first_member then true else false

/-- Character-list helper: does `hay` start with `needle`? -/
def chPre (needle hay : List Char) : Bool :=
  match needle, hay with
  | [], _ => true
  | _ :: _, [] => false
  | a :: as, b :: bs => a == b && chPre as bs

/-- Character-list helper: does `needle` occur contiguously in `hay`? -/
def chSub (needle hay : List Char) : Bool :=
  match hay with
  | [] => needle.isEmpty
  | b :: tl => chPre needle (b :: tl) || chSub needle tl

/-- Python substring containment `needle in hay` on strings. -/
def hasSubstring (hay needle : String) : Bool :=
  chSub needle.toList hay.toList

/-- Tail of `handle_pagination` (lines 129-137): extract the new page
(observed at elapsed instant `t`) and succeed exactly when it is
non-empty. `trace` carries the verification read instants already made. -/
def finishPagination (d : PageDyn) (t : Nat) (trace : List Nat) :
    Except Unit ((Bool × Option (List MemberRecord)) × List Nat) :=
  let new_data := extract_table_data (d.postClick t)
  if new_data = [] then Except.ok ((false, none), trace)
  else Except.ok ((true, some new_data), trace)

/-- Body of `handle_pagination` (lines 94-137), without the enclosing
`except Exception` handler.  Control flow, in source order: previous
fingerprint from `current_data[0]` (or Python `None`); Next button lookup;
`"disabled" in get_attribute("class")` — a missing attribute makes `in`
raise `TypeError`, embedded as the error case — `or is_disabled()`; click
and 3000 ms wait; when the previous fingerprint is truthy (present and
non-empty) one verification read at elapsed 3000+2000 ms, and if it fails
one more after a further 5000 ms wait at elapsed 10000+2000 ms; then
extraction.  The second component is the ghost trace of verification
read instants. -/
def handlePaginationRun (d : PageDyn) (current_data : List MemberRecord) :
    Except Unit ((Bool × Option (List MemberRecord)) × List Nat) :=
  match d.current.nextButton with
  | none => Except.ok ((false, none), [])
  | some btn =>
    match btn.classAttr with
    | none => Except.error ()
    | some cls =>
      if hasSubstring cls "disabled" || btn.disabled then
        Except.ok ((false, none), [])
      else
        match current_data.head?.map (fun r => r.memberName) with
        | some fm =>
          if fm ≠ "" then
            if verify_table_update (d.postClick 5000) fm then
              finishPagination d 5000 [5000]
            else if verify_table_update (d.postClick 12000) fm then
              finishPagination d 12000 [5000, 12000]
            else Except.ok ((false, none), [5000, 12000])
          else finishPagination d 3000 []
        | none => finishPagination d 3000 []

/-- `handle_pagination` (lines 94-141): the body with the source's
catch-all handler, which turns any raised error into `(False, None)`. -/
def handle_pagination (d : PageDyn) (current_data : List MemberRecord) :
    Bool × Option (List MemberRecord) :=
  match handlePaginationRun d current_data with
  | Except.ok r => r.1
  | Except.error _ => (false, none)

/-- Ghost observation: the verification read instants of one
`handle_pagination` call (empty when the body errors out). -/
def paginationVerifyTimes (d : PageDyn) (current_data : List MemberRecord) :
    List Nat :=
  match handlePaginationRun d current_data with
  | Except.ok r => r.2
  | Except.error _ => []

/-- In-memory model of the output directory: written files as
path/content pairs, later writes overwriting earlier ones. -/
abbrev FileSys := List (String × List MemberRecord)

/-- Overwrite-or-create write of one file. -/
def fsWrite (fs : FileSys) (path : String) (content : List MemberRecord) :
    FileSys :=
  fs.filter (fun e => e.1 != path) ++ [(path, content)]

/-- The `cpa_members_<timestamp>.csv` filename of `save_to_csv`. -/
def csvFileName (now : String) : String :=
  "cpa_members_" ++ now ++ ".csv"

/-- `save_to_csv` (lines 50-64): the timestamp is re-read from the clock
at every call (`datetime.now()` formatted `%Y%m%d_%H%M%S`, passed here as
the already formatted string `now`), the file is written under
`<output_dir>/cpa_members_<now>.csv`, and the path is returned. -/
def save_to_csv (data : List MemberRecord) (output_dir : String)
    (now : String) (fs : FileSys) : String × FileSys :=
  let filepath := output_dir ++ "/" ++ csvFileName now
  (filepath, fsWrite fs filepath data)

/-- Result of the harvest loop: accumulated records, the snapshots passed
to `save_to_csv` in order, the number of pages whose records were
appended, and whether an exception unwound the loop. -/
structure RunResult where
  data : List MemberRecord
  saves : List (List MemberRecord)
  pagesDone : Nat
  exc : Bool
deriving DecidableEq

/-- The `while page_number <= max_pages` loop of `main` (lines 198-226).
`fuel` bounds the iteration count (the loop runs at most
`mp - pn + 1` times since `page_number` strictly increases), so the
recursion is structural.  Iteration body, in source order: a crashing
extraction (an unexpected error `extract_table_data` does not catch)
unwinds to the top-level handler; `if not page_data: break`; the
duplicate-data check only logs and is not modelled; `all_data.extend`;
`page_number % save_frequency` raises `ZeroDivisionError` when the flag
is 0, otherwise a checkpoint save on multiples; `handle_pagination`, whose
returned records are never appended; `break` on failure, else advance. -/
def harvestLoop (w : RunWorld) (sf mp : Nat) :
    Nat → Nat → List MemberRecord → List (List MemberRecord) → RunResult
  | 0, _, data, saves => ⟨data, saves, 0, false⟩
  | fuel + 1, pn, data, saves =>
    if pn ≤ mp then
      if w.crashAt = some pn then ⟨data, saves, 0, true⟩
      else
        let page_data := extract_table_data (w.pages pn).current
        if page_data = [] then ⟨data, saves, 0, false⟩
        else if sf = 0 then ⟨data ++ page_data, saves, 1, true⟩
        else
          let data2 := data ++ page_data
          let saves2 := if pn % sf = 0 then saves ++ [data2] else saves
          if (handle_pagination (w.pages pn) page_data).1 then
            let r := harvestLoop w sf mp fuel (pn + 1) data2 saves2
            ⟨r.data, r.saves, r.pagesDone + 1, r.exc⟩
          else ⟨data2, saves2, 1, false⟩
    else ⟨data, saves, 0, false⟩

/-- `main` (lines 198-244): run the loop from page 1 with an empty
accumulator, then perform the final `if all_data: save_to_csv(...)`.
The `except` handler runs the same conditional final save, so both the
normal and the exception exit share this finalisation. -/
def mainRun (w : RunWorld) (mp sf : Nat) : RunResult :=
  let r := harvestLoop w sf mp (mp + 1) 1 [] []
  if r.data = [] then r else { r with saves := r.saves ++ [r.data] }

/-! Concrete page states, dynamics and run environments used by the
counterexamples and witnesses below. -/

/-- A page whose first (and only) row has a header cell whose text strips
to the empty string. -/
def c1Page : Page :=
  { tablePresent := true, rows := [⟨some "  ", []⟩], nextButton := none }

/-- A page whose first row header strips to `"B"`. -/
def c1WitPage : Page :=
  { tablePresent := true, rows := [⟨some " B ", []⟩], nextButton := none }

/-- A page whose first record has an empty member name, with an enabled
Next button; its own fingerprint is the empty string. -/
def c2StalePage : Page :=
  { tablePresent := true
    rows := [⟨some "", ["a", "b", "c"]⟩]
    nextButton := some ⟨some "slds-button slds-button_neutral", false⟩ }

/-- Dynamics in which clicking Next never changes anything. -/
def c2Dyn : PageDyn := ⟨c2StalePage, fun _ => c2StalePage⟩

/-- The records `main` extracts from `c2StalePage` and passes to
`handle_pagination` as `current_data`. -/
def c2Data : List MemberRecord := [⟨"", "a", "b", "c"⟩]

/-- A page with member `"A"` and an enabled Next button. -/
def c2WitPage : Page :=
  { tablePresent := true
    rows := [⟨some "A", ["x", "y", "z"]⟩]
    nextButton := some ⟨some "slds-button slds-button_neutral", false⟩ }

/-- Dynamics in which the fingerprint stays `"A"` forever after the
click. -/
def c2WitDyn : PageDyn := ⟨c2WitPage, fun _ => c2WitPage⟩

/-- Current records for the stale-click witness. -/
def c2WitData : List MemberRecord := [⟨"A", "x", "y", "z"⟩]

/-- A page without any Next control. -/
def c3NoBtnDyn : PageDyn :=
  ⟨{ tablePresent := true, rows := [], nextButton := none }, fun _ =>
    { tablePresent := true, rows := [], nextButton := none }⟩

/-- A page whose Next control carries a `disabled` class token. -/
def c3DisBtnDyn : PageDyn :=
  ⟨{ tablePresent := true, rows := []
     nextButton := some ⟨some "slds-button disabled", false⟩ }, fun _ =>
    { tablePresent := true, rows := [], nextButton := none }⟩

/-- A page whose Next control has no `class` attribute at all (the
`in` test then raises `TypeError`). -/
def c3NilAttrDyn : PageDyn :=
  ⟨{ tablePresent := true, rows := []
     nextButton := some ⟨none, true⟩ }, fun _ =>
    { tablePresent := true, rows := [], nextButton := none }⟩

/-- A page mixing a qualifying row, a short row and a header-less row. -/
def c5Page : Page :=
  { tablePresent := true
    rows := [⟨some "N1", ["a", "b", "c"]⟩, ⟨some "N2", ["a"]⟩, ⟨none, ["a", "b", "c"]⟩]
    nextButton := none }

/-- A row whose raw header text begins with the `".,"` sentinel. -/
def c6Row : Row := ⟨some ".,Jane Doe", ["CPA", "Acme", "Toronto"]⟩

/-- A one-row page built from `c6Row`. -/
def c6Page : Page := { tablePresent := true, rows := [c6Row], nextButton := none }

/-- Page one for the run-level witnesses: member `"A"`, enabled Next. -/
def w1Page : Page :=
  { tablePresent := true
    rows := [⟨some "A", ["d", "e", "f"]⟩]
    nextButton := some ⟨some "slds-button slds-button_neutral", false⟩ }

/-- Page two for the run-level witnesses: member `"B"`, no Next. -/
def w2Page : Page :=
  { tablePresent := true
    rows := [⟨some "B", ["g", "h", "i"]⟩]
    nextButton := none }

/-- A two-page run environment: page 1 advances to page 2, page 2 has no
Next control. -/
def twoPageWorld : RunWorld :=
  { pages := fun k => if k ≤ 1 then ⟨w1Page, fun _ => w2Page⟩ else ⟨w2Page, fun _ => w2Page⟩
    crashAt := none }

/-- A run environment whose every page shows an empty table body. -/
def c8EmptyWorld : RunWorld :=
  { pages := fun _ => ⟨{ tablePresent := true, rows := [], nextButton := none }, fun _ =>
      { tablePresent := true, rows := [], nextButton := none }⟩
    crashAt := none }

/-- The two-page environment, but extraction of page 2 raises an
unexpected error that unwinds to `main`'s top-level handler. -/
def c8CrashWorld : RunWorld :=
  { pages := twoPageWorld.pages, crashAt := some 2 }

/-- A sample record for the persistence theorems. -/
def c9Rec : MemberRecord := ⟨"A", "B", "C", "D"⟩

/-! Helper lemmas. -/

theorem rowRecord_isSome (r : Row) : (rowRecord r).isSome = qualRow r := by
  unfold rowRecord qualRow
  cases h : r.th
  · simp [h]
  · simp only [h, Option.isSome_some, Bool.true_and]
    split_ifs with h3 <;> simp [h3]

theorem filterMap_rowRecord_length (rs : List Row) :
    (rs.filterMap rowRecord).length = rs.countP (fun r => qualRow r) := by
  induction rs with
  | nil => simp
  | cons r rs ih =>
    rw [List.filterMap_cons, List.countP_cons]
    cases h : rowRecord r
    · have hq : qualRow r = false := by rw [← rowRecord_isSome, h]; rfl
      simp [ih, hq]
    · have hq : qualRow r = true := by rw [← rowRecord_isSome, h]; rfl
      simp [ih, hq]

theorem verify_true_iff (p : Page) (prev : String) :
    verify_table_update p prev = true ↔
      ∃ s, pageFingerprint p = some s ∧ s ≠ prev := by
  unfold verify_table_update pageFingerprint
  cases h : firstRowQuery p with
  | none => simp
  | some row =>
    obtain ⟨th, tds⟩ := row
    cases th with
    | none => simp
    | some txt =>
      by_cases hd : pyStrip txt = prev <;> simp [hd]

theorem verify_false_of_eq (p : Page) (prev : String)
    (h : pageFingerprint p = some prev) : verify_table_update p prev = false := by
  cases hv : verify_table_update p prev
  · rfl
  · exfalso
    obtain ⟨s, hs, hne⟩ := (verify_true_iff p prev).mp hv
    rw [h] at hs
    have hps : prev = s := by injection hs
    exact hne hps.symm

/-! C1 — Update Detector change condition. -/

/-- C1, counterexample: `verify_table_update` reports changed=true on a
page whose freshly read fingerprint is the empty string (the first row's
header strips to `""`), so the claim's "and is non-empty" conjunct is
false of the code: lines 80-88 compare the stripped text against
`previous_first_member` and never test emptiness. -/
theorem C1_counterexample :
    verify_table_update c1Page "A" = true ∧ pageFingerprint c1Page = some "" := by
  exact ⟨by decide, by decide⟩

/-- C1, amended: `verify_table_update` reports changed=true exactly when
a first row with a header cell is present and its stripped text differs
from `previous_fingerprint` — emptiness is not checked; in particular it
never reports changed=true when the freshly read fingerprint equals
`previous_fingerprint`. -/
theorem C1_change_iff_fingerprint_differs (p : Page) (prev : String) :
    (verify_table_update p prev = true ↔
      ∃ s, pageFingerprint p = some s ∧ s ≠ prev) ∧
    (pageFingerprint p = some prev → verify_table_update p prev = false) :=
  ⟨verify_true_iff p prev, verify_false_of_eq p prev⟩

/-- C1, witness: the amended theorem applied at concrete pages — a page
fingerprinted `"B"` is reported unchanged against previous `"B"` and
changed against previous `"A"`. -/
theorem C1_change_iff_fingerprint_differs_witness :
    verify_table_update c1WitPage "B" = false ∧
    verify_table_update c1WitPage "A" = true :=
  ⟨(C1_change_iff_fingerprint_differs c1WitPage "B").2 (by decide),
   (C1_change_iff_fingerprint_differs c1WitPage "A").1.mpr ⟨"B", by decide, by decide⟩⟩

/-! C3 — pagination failures are never fatal. -/

/-- C3: `handle_pagination` never propagates an error: with no Next
control it returns `(false, none)`; with a control marked disabled by a
class token or the native disabled attribute it returns `(false, none)`;
with a control whose `class` attribute read returns nothing the body
raises and the catch-all still returns `(false, none)`; and in general
any error of the body is caught and yields `(false, none)`. -/
theorem C3_pagination_never_fatal (d : PageDyn) (cd : List MemberRecord) :
    (d.current.nextButton = none → handle_pagination d cd = (false, none)) ∧
    (∀ b, d.current.nextButton = some b →
      ((∃ c, b.classAttr = some c ∧ hasSubstring c "disabled" = true) ∨
        b.disabled = true) →
      handle_pagination d cd = (false, none)) ∧
    (∀ b, d.current.nextButton = some b → b.classAttr = none →
      handle_pagination d cd = (false, none)) ∧
    (∀ e, handlePaginationRun d cd = Except.error e →
      handle_pagination d cd = (false, none)) := by
  refine ⟨?_, ?_, ?_, ?_⟩
  · intro h
    unfold handle_pagination handlePaginationRun
    rw [h]
  · intro b hb hd
    obtain ⟨cAttr, disb⟩ := b
    unfold handle_pagination handlePaginationRun
    rw [hb]
    cases cAttr with
    | none => rfl
    | some c =>
      rcases hd with ⟨c', hc', hsub⟩ | hdis
      · have hcc : c = c' := by injection hc'
        subst hcc
        simp [hsub]
      · have hdd : disb = true := hdis
        subst hdd
        simp
  · intro b hb hc
    obtain ⟨cAttr, disb⟩ := b
    have hca : cAttr = none := hc
    subst hca
    unfold handle_pagination handlePaginationRun
    rw [hb]
  · intro e he
    unfold handle_pagination
    rw [he]

/-- C3, witness: the theorem applied at a missing control, a control with
a `disabled` class token, and a control whose attribute read returns
nothing. -/
theorem C3_pagination_never_fatal_witness :
    handle_pagination c3NoBtnDyn [] = (false, none) ∧
    handle_pagination c3DisBtnDyn [] = (false, none) ∧
    handle_pagination c3NilAttrDyn [] = (false, none) :=
  ⟨(C3_pagination_never_fatal c3NoBtnDyn []).1 rfl,
   (C3_pagination_never_fatal c3DisBtnDyn []).2.1 _ rfl
     (Or.inl ⟨"slds-button disabled", rfl, by decide⟩),
   (C3_pagination_never_fatal c3NilAttrDyn []).2.2.1 _ rfl rfl⟩

/-! C5 — row extraction shape. -/

/-- C5: on a page whose table appears, extraction yields exactly one
record per row whose header cell reads successfully and which has at
least 3 data cells, in row order (the splitting equation); rows with
fewer than 3 data cells contribute nothing; a row whose header read
errors (no `th`) is skipped while the surrounding rows of the batch are
unaffected; and every qualifying row does yield a record. -/
theorem C5_extract_exactly_qualifying_rows (p : Page)
    (hp : p.tablePresent = true) :
    (extract_table_data p).length = p.rows.countP (fun r => qualRow r) ∧
    (∀ pre r post, p.rows = pre ++ r :: post →
      extract_table_data p =
        pre.filterMap rowRecord ++ (rowRecord r).toList ++
          post.filterMap rowRecord) ∧
    (∀ r : Row, r.tds.length < 3 → rowRecord r = none) ∧
    (∀ r : Row, r.th = none → rowRecord r = none) ∧
    (∀ r : Row, qualRow r = true → (rowRecord r).isSome = true) := by
  refine ⟨?_, ?_, ?_, ?_, ?_⟩
  · unfold extract_table_data
    rw [hp]
    simp [filterMap_rowRecord_length]
  · intro pre r post hrows
    unfold extract_table_data
    rw [hp]
    simp only [if_true]
    rw [hrows, List.filterMap_append, List.filterMap_cons]
    cases h : rowRecord r <;> simp [h]
  · intro r h
    unfold rowRecord
    cases r.th <;> simp [Nat.not_le_of_lt h]
  · intro r h
    unfold rowRecord
    rw [h]
  · intro r h
    rw [rowRecord_isSome, h]

/-- C5, witness: the count equation applied to a concrete page holding a
qualifying row, a 1-cell row and a header-less row; exactly one record
comes out. -/
theorem C5_extract_exactly_qualifying_rows_witness :
    (extract_table_data c5Page).length = c5Page.rows.countP (fun r => qualRow r) ∧
    (extract_table_data c5Page).length = 1 :=
  ⟨(C5_extract_exactly_qualifying_rows c5Page rfl).1, by decide⟩

/-! C6 — member name cleanup. -/

/-- C6, counterexample: a raw header text beginning with the two-character
sentinel `".,"` yields a member_name that still begins with `".,"` —
line 32 only calls `.strip()` and never strips a sentinel, so the claim's
prefix-stripping is false of this code. -/
theorem C6_counterexample :
    (extract_table_data c6Page).map (fun r => r.memberName) = [".,Jane Doe"] ∧
    chPre ".,".toList ".,Jane Doe".toList = true := by
  exact ⟨by decide, by decide⟩

/-- C6, amended: the member_name of a produced record is exactly the raw
row-header text stripped of surrounding whitespace; no sentinel cleanup
is applied, so a leading `".,"` survives. -/
theorem C6_member_name_is_stripped_header (r : Row) (t : String)
    (rec : MemberRecord) (hth : r.th = some t) (hr : rowRecord r = some rec) :
    rec.memberName = pyStrip t := by
  obtain ⟨th, tds⟩ := r
  have hth2 : th = some t := hth
  subst hth2
  have hr2 : (if 3 ≤ tds.length then
      some ({ memberName := pyStrip t, designations := pyStrip (tds.getD 0 "")
              employer := pyStrip (tds.getD 1 "")
              employerCity := pyStrip (tds.getD 2 "") } : MemberRecord)
    else none) = some rec := hr
  by_cases h3 : 3 ≤ tds.length
  · rw [if_pos h3] at hr2
    have h := Option.some.inj hr2
    rw [← h]
  · rw [if_neg h3] at hr2
    exact Option.noConfusion hr2

/-- C6, witness: the amended theorem applied to the sentinel-headed row. -/
theorem C6_member_name_is_stripped_header_witness :
    (⟨".,Jane Doe", "CPA", "Acme", "Toronto"⟩ : MemberRecord).memberName
      = pyStrip ".,Jane Doe" :=
  C6_member_name_is_stripped_header c6Row ".,Jane Doe" _ rfl (by decide)

/-! C9 — persistence file naming. -/

/-- C9, counterexample: two writes within one run, made at clock readings
five seconds apart (the code calls `datetime.now()` inside `save_to_csv`
at every call), go to two distinct paths and leave two files in the
output directory — not an idempotent overwrite of one per-run file. -/
theorem C9_counterexample :
    (save_to_csv [c9Rec] "output" "20250101_120000" []).1 ≠
      (save_to_csv [c9Rec] "output" "20250101_120005"
        (save_to_csv [c9Rec] "output" "20250101_120000" []).2).1 ∧
    ((save_to_csv [c9Rec] "output" "20250101_120005"
        (save_to_csv [c9Rec] "output" "20250101_120000" []).2).2).length = 2 := by
  exact ⟨by decide, by decide⟩

/-- C9, amended: each `save_to_csv` call writes to a filename embedding
the clock reading of that call, so two writes into the same directory
land in the same file exactly when the formatted timestamps coincide —
distinct runs (distinct timestamps) never overwrite each other, while
within one run each checkpoint at a new second creates a new file; two
writes at the same timestamp do overwrite, leaving a single file. -/
theorem C9_path_eq_iff_timestamp_eq (data data' : List MemberRecord)
    (dir now now' : String) (fs fs' : FileSys) :
    ((save_to_csv data dir now fs).1 = (save_to_csv data' dir now' fs').1 ↔
      now = now') ∧
    (save_to_csv data' dir now (save_to_csv data dir now []).2).2 =
      [(dir ++ "/" ++ csvFileName now, data')] := by
  constructor
  · unfold save_to_csv csvFileName
    constructor
    · intro h
      have hd := congrArg String.data h
      simp only [String.data_append, List.append_assoc] at hd
      have h1 := List.append_cancel_left hd
      have h2 := List.append_cancel_left h1
      have h3 := List.append_cancel_left h2
      have h4 := List.append_cancel_right h3
      exact String.ext h4
    · intro h
      rw [h]
  · unfold save_to_csv fsWrite
    simp

/-- C9, witness: the amended theorem applied at equal and at distinct
timestamps. -/
theorem C9_path_eq_iff_timestamp_eq_witness :
    (save_to_csv [] "output" "20250101_120000" []).1 =
      (save_to_csv [] "output" "20250101_120000" []).1 ∧
    (save_to_csv [c9Rec] "output" "20250101_120000"
        (save_to_csv [] "output" "20250101_120000" []).2).2 =
      [("output" ++ "/" ++ csvFileName "20250101_120000", [c9Rec])] :=
  ⟨(C9_path_eq_iff_timestamp_eq [] [] "output" "20250101_120000"
      "20250101_120000" [] []).1.mpr rfl,
   (C9_path_eq_iff_timestamp_eq [] [c9Rec] "output" "20250101_120000"
      "20250101_120000" [] []).2⟩

/-! Harvest-loop helper lemmas. -/

theorem range_succ_join (n : Nat) (g : Nat → List MemberRecord) :
    ((List.range (n + 1)).map g).flatten =
      g 0 ++ ((List.range n).map (fun i => g (i + 1))).flatten := by
  rw [List.range_succ_eq_map]
  simp only [List.map_cons, List.flatten_cons, List.map_map]
  rfl

theorem mainRun_data (w : RunWorld) (mp sf : Nat) :
    (mainRun w mp sf).data = (harvestLoop w sf mp (mp + 1) 1 [] []).data := by
  unfold mainRun
  by_cases h : (harvestLoop w sf mp (mp + 1) 1 [] []).data = [] <;> simp [h]

theorem mainRun_pagesDone (w : RunWorld) (mp sf : Nat) :
    (mainRun w mp sf).pagesDone =
      (harvestLoop w sf mp (mp + 1) 1 [] []).pagesDone := by
  unfold mainRun
  by_cases h : (harvestLoop w sf mp (mp + 1) 1 [] []).data = [] <;> simp [h]

/-- The accumulated record list of any tail of the loop is the incoming
accumulator followed by, in order, the top-of-iteration extraction of
each page whose records were appended. -/
theorem harvestLoop_data_eq (w : RunWorld) (sf mp : Nat) :
    ∀ (fuel pn : Nat) (data : List MemberRecord)
      (saves : List (List MemberRecord)),
      (harvestLoop w sf mp fuel pn data saves).data =
        data ++ ((List.range (harvestLoop w sf mp fuel pn data saves).pagesDone).map
          (fun i => extract_table_data (w.pages (pn + i)).current)).flatten := by
  intro fuel
  induction fuel with
  | zero =>
    intro pn data saves
    simp [harvestLoop]
  | succ fuel ih =>
    intro pn data saves
    by_cases h1 : pn ≤ mp
    · by_cases h2 : w.crashAt = some pn
      · simp [harvestLoop, h1, h2]
      · by_cases h3 : extract_table_data (w.pages pn).current = []
        · simp [harvestLoop, h1, h2, h3]
        · by_cases h4 : sf = 0
          · simp [harvestLoop, h1, h2, h3, h4, List.range_succ]
          · by_cases h5 : (handle_pagination (w.pages pn)
                (extract_table_data (w.pages pn).current)).1 = true
            · simp only [harvestLoop]
              simp [h1, h2, h3, h4, h5]
              rw [ih]
              rw [range_succ_join]
              have hmap :
                  (List.range (harvestLoop w sf mp fuel (pn + 1)
                      (data ++ extract_table_data (w.pages pn).current)
                      (if pn % sf = 0
                        then saves ++ [data ++ extract_table_data (w.pages pn).current]
                        else saves)).pagesDone).map
                    (fun i => extract_table_data (w.pages (pn + (i + 1))).current) =
                  (List.range (harvestLoop w sf mp fuel (pn + 1)
                      (data ++ extract_table_data (w.pages pn).current)
                      (if pn % sf = 0
                        then saves ++ [data ++ extract_table_data (w.pages pn).current]
                        else saves)).pagesDone).map
                    (fun i => extract_table_data (w.pages (pn + 1 + i)).current) :=
                List.map_congr_left (fun i _ => by
                  rw [show pn + (i + 1) = pn + 1 + i by omega])
              rw [hmap]
              simp [List.append_assoc]
            · simp [harvestLoop, h1, h2, h3, h4, h5, List.range_succ]
    · simp [harvestLoop, h1]

/-- The loop only ever appends to the accumulator. -/
theorem harvestLoop_data_extends (w : RunWorld) (sf mp fuel pn : Nat)
    (data : List MemberRecord) (saves : List (List MemberRecord)) :
    ∃ tail, (harvestLoop w sf mp fuel pn data saves).data = data ++ tail :=
  ⟨_, harvestLoop_data_eq w sf mp fuel pn data saves⟩

/-- If the loop ends with an empty accumulator it started empty and made
no checkpoint write. -/
theorem harvestLoop_saves_of_nil (w : RunWorld) (sf mp : Nat) :
    ∀ (fuel pn : Nat) (data : List MemberRecord)
      (saves : List (List MemberRecord)),
      (harvestLoop w sf mp fuel pn data saves).data = [] →
      data = [] ∧ (harvestLoop w sf mp fuel pn data saves).saves = saves := by
  intro fuel
  induction fuel with
  | zero =>
    intro pn data saves h
    exact ⟨h, rfl⟩
  | succ fuel ih =>
    intro pn data saves h
    by_cases h1 : pn ≤ mp
    · by_cases h2 : w.crashAt = some pn
      · simp [harvestLoop, h1, h2] at h ⊢
        exact h
      · by_cases h3 : extract_table_data (w.pages pn).current = []
        · simp [harvestLoop, h1, h2, h3] at h ⊢
          exact h
        · by_cases h4 : sf = 0
          · simp [harvestLoop, h1, h2, h3, h4] at h
          · by_cases h5 : (handle_pagination (w.pages pn)
                (extract_table_data (w.pages pn).current)).1 = true
            · exfalso
              simp only [harvestLoop] at h
              simp [h1, h2, h3, h4, h5] at h
              obtain ⟨tail, htail⟩ := harvestLoop_data_extends w sf mp fuel (pn + 1)
                (data ++ extract_table_data (w.pages pn).current)
                (if pn % sf = 0
                  then saves ++ [data ++ extract_table_data (w.pages pn).current]
                  else saves)
              rw [htail] at h
              rcases List.append_eq_nil.mp h with ⟨hd, -⟩
              rcases List.append_eq_nil.mp hd with ⟨-, hpd⟩
              exact h3 hpd
            · simp [harvestLoop, h1, h2, h3, h4, h5] at h
    · simp [harvestLoop, h1] at h ⊢
      exact h

/-- Shape of a non-raising `handle_pagination` body result: either a
failure pair, or a success carrying exactly the (non-empty) extraction of
some post-click instant. -/
theorem handlePaginationRun_ok_shape (d : PageDyn) (cd : List MemberRecord)
    (res : (Bool × Option (List MemberRecord)) × List Nat)
    (h : handlePaginationRun d cd = Except.ok res) :
    res.1 = (false, none) ∨
    ∃ t, res.1 = (true, some (extract_table_data (d.postClick t))) ∧
      extract_table_data (d.postClick t) ≠ [] := by
  have hfin : ∀ (t : Nat) (tr : List Nat),
      finishPagination d t tr = Except.ok res →
      res.1 = (false, none) ∨
      ∃ u, res.1 = (true, some (extract_table_data (d.postClick u))) ∧
        extract_table_data (d.postClick u) ≠ [] := by
    intro t tr hx
    unfold finishPagination at hx
    by_cases hnew : extract_table_data (d.postClick t) = []
    · rw [if_pos hnew] at hx
      left
      rw [← Except.ok.inj hx]
    · rw [if_neg hnew] at hx
      right
      exact ⟨t, by rw [← Except.ok.inj hx], hnew⟩
  unfold handlePaginationRun at h
  split at h
  · left
    rw [← Except.ok.inj h]
  · split at h
    · exact Except.noConfusion h
    · split at h
      · left
        rw [← Except.ok.inj h]
      · split at h
        · split at h
          · split at h
            · exact hfin 5000 [5000] h
            · split at h
              · exact hfin 12000 [5000, 12000] h
              · left
                rw [← Except.ok.inj h]
          · exact hfin 3000 [] h
        · exact hfin 3000 [] h

/-- Per-page extraction length equals the page's qualifying-row count. -/
theorem extract_table_data_length (p : Page) :
    (extract_table_data p).length = qualCount p := by
  unfold extract_table_data qualCount
  cases hp : p.tablePresent <;> simp [filterMap_rowRecord_length]

/-- Success of `handle_pagination` always carries a non-empty record
list (line 132's `if new_data:` check). -/
theorem handle_pagination_success_nonempty (d : PageDyn)
    (cd nd : List MemberRecord)
    (h : handle_pagination d cd = (true, some nd)) : nd ≠ [] := by
  unfold handle_pagination at h
  cases hrun : handlePaginationRun d cd with
  | error e =>
    rw [hrun] at h
    have h2 : ((false, none) : Bool × Option (List MemberRecord)) = (true, some nd) := h
    simp at h2
  | ok r =>
    rw [hrun] at h
    have h2 : r.1 = (true, some nd) := h
    rcases handlePaginationRun_ok_shape d cd r hrun with hf | ⟨t, ht, hne⟩
    · rw [hf] at h2
      simp at h2
    · rw [ht] at h2
      have h3 : extract_table_data (d.postClick t) = nd := by
        have h4 := congrArg Prod.snd h2
        simpa using h4
      rw [← h3]
      exact hne

/-! C2 — two-tier verification on stale pages. -/

/-- C2, counterexample: a page state whose fingerprint never changes
after the click (the post-click state is constantly the same page, whose
fingerprint equals the current first record's name, the empty string),
yet `advance` performs zero verification passes and returns success with
new records: line 121's truthiness guard skips verification entirely
whenever the current first member name is empty, so the claim's universal
"exactly one fast pass then one slow pass, then (false, none)" fails. -/
theorem C2_counterexample :
    c2Dyn.postClick = (fun _ => c2StalePage) ∧
    pageFingerprint c2StalePage = some "" ∧
    c2Data.head?.map (fun r => r.memberName) = some "" ∧
    extract_table_data c2Dyn.current = c2Data ∧
    handle_pagination c2Dyn c2Data = (true, some c2Data) ∧
    paginationVerifyTimes c2Dyn c2Data = [] :=
  ⟨rfl, by decide, by decide, by decide, by decide, by decide⟩

/-- C2, amended: when the current records have a non-empty first member
name and the Next control is present and enabled, a page whose freshly
read fingerprint always equals the previous one makes `advance` perform
exactly one fast verification pass (read at elapsed 5000 ms, after the
3000 ms wait plus the verifier's 2000 ms wait) followed by exactly one
slower pass (read at elapsed 12000 ms, after the longer 5000 ms base
delay plus 2000 ms), and only then return `(false, none)` with no new
records; with an empty or absent first member name verification is
skipped entirely. -/
theorem C2_two_tier_stale (d : PageDyn) (current_data : List MemberRecord)
    (btn : Button) (cls fm : String)
    (hb : d.current.nextButton = some btn)
    (hcls : btn.classAttr = some cls)
    (hdis1 : hasSubstring cls "disabled" = false)
    (hdis2 : btn.disabled = false)
    (hfm : current_data.head?.map (fun r => r.memberName) = some fm)
    (hne : fm ≠ "")
    (hstale : ∀ t, pageFingerprint (d.postClick t) = some fm) :
    handle_pagination d current_data = (false, none) ∧
    paginationVerifyTimes d current_data = [5000, 12000] := by
  have hv1 : verify_table_update (d.postClick 5000) fm = false :=
    verify_false_of_eq _ _ (hstale 5000)
  have hv2 : verify_table_update (d.postClick 12000) fm = false :=
    verify_false_of_eq _ _ (hstale 12000)
  have hrun : handlePaginationRun d current_data =
      Except.ok ((false, none), [5000, 12000]) := by
    simp only [handlePaginationRun, hb, hcls, hfm]
    simp [hdis1, hdis2, hne, hv1, hv2]
  constructor
  · unfold handle_pagination
    rw [hrun]
  · unfold paginationVerifyTimes
    rw [hrun]

/-- C2, witness: the amended theorem applied to a click that leaves the
fingerprint at `"A"` forever. -/
theorem C2_two_tier_stale_witness :
    handle_pagination c2WitDyn c2WitData = (false, none) ∧
    paginationVerifyTimes c2WitDyn c2WitData = [5000, 12000] := by
  have hA : pageFingerprint c2WitPage = some "A" := by decide
  exact C2_two_tier_stale c2WitDyn c2WitData
    ⟨some "slds-button slds-button_neutral", false⟩
    "slds-button slds-button_neutral" "A"
    rfl rfl (by decide) rfl (by decide) (by decide) (fun _ => hA)

/-! C4 — harvest accumulation invariants. -/

/-- C4: the accumulated sequence only grows by appending (never shrinks
or reorders committed pages); and over a whole run the accumulated data
is exactly the in-order concatenation of the top-of-iteration extraction
of pages 1..k for the k appended pages — so a verification failure while
advancing discards only the next page's uncommitted data — and its length
is the sum of the per-page qualifying-row counts. -/
theorem C4_append_only_and_length_sum :
    (∀ (w : RunWorld) (sf mp fuel pn : Nat) (data : List MemberRecord)
        (saves : List (List MemberRecord)),
      ∃ tail, (harvestLoop w sf mp fuel pn data saves).data = data ++ tail) ∧
    (∀ (w : RunWorld) (mp sf : Nat),
      (mainRun w mp sf).data =
        ((List.range (mainRun w mp sf).pagesDone).map
          (fun i => extract_table_data (w.pages (1 + i)).current)).flatten ∧
      (mainRun w mp sf).data.length =
        ((List.range (mainRun w mp sf).pagesDone).map
          (fun i => qualCount (w.pages (1 + i)).current)).sum) := by
  constructor
  · intro w sf mp fuel pn data saves
    exact harvestLoop_data_extends w sf mp fuel pn data saves
  · intro w mp sf
    have h1 : (mainRun w mp sf).data =
        ((List.range (mainRun w mp sf).pagesDone).map
          (fun i => extract_table_data (w.pages (1 + i)).current)).flatten := by
      rw [mainRun_data, mainRun_pagesDone]
      have hd := harvestLoop_data_eq w sf mp (mp + 1) 1 [] []
      simpa using hd
    refine ⟨h1, ?_⟩
    rw [h1, List.length_flatten, List.map_map]
    congr 1
    apply List.map_congr_left
    intro i _
    simp [Function.comp, extract_table_data_length]

/-! C7 — single-page cap. -/

/-- C7: with `max_pages = 1` and a non-empty (and non-crashing) first
page, the run accumulates exactly page 1's records, the final persistence
writes exactly those records, and exactly one page is appended — whatever
the Next control looks like and even when advancing would succeed. -/
theorem C7_single_page_cap (w : RunWorld) (sf : Nat)
    (hc : w.crashAt ≠ some 1)
    (hd : extract_table_data (w.pages 1).current ≠ []) :
    (mainRun w 1 sf).data = extract_table_data (w.pages 1).current ∧
    (mainRun w 1 sf).saves.getLast? =
      some (extract_table_data (w.pages 1).current) ∧
    (mainRun w 1 sf).pagesDone = 1 := by
  have hloop : (harvestLoop w sf 1 2 1 [] []).data =
      extract_table_data (w.pages 1).current ∧
      (harvestLoop w sf 1 2 1 [] []).pagesDone = 1 := by
    by_cases h4 : sf = 0
    · simp [harvestLoop, hc, hd, h4]
    · by_cases h5 : (handle_pagination (w.pages 1)
          (extract_table_data (w.pages 1).current)).1 = true
      · simp [harvestLoop, hc, hd, h4, h5]
      · simp [harvestLoop, hc, hd, h4, h5]
  have hne : ¬((harvestLoop w sf 1 2 1 [] []).data = []) := by
    rw [hloop.1]; exact hd
  refine ⟨?_, ?_, ?_⟩
  · rw [mainRun_data, hloop.1]
  · simp only [mainRun]
    rw [if_neg hne]
    simp [hloop.1, List.getLast?_concat]
  · rw [mainRun_pagesDone, hloop.2]

/-- C7, witness: the theorem applied to a world whose page 1 has an
enabled Next control and a successful advance; the extra conjunct shows
that the advance would indeed succeed, yet only page 1 is harvested. -/
theorem C7_single_page_cap_witness :
    (mainRun twoPageWorld 1 10).data =
      extract_table_data (twoPageWorld.pages 1).current ∧
    (mainRun twoPageWorld 1 10).saves.getLast? =
      some (extract_table_data (twoPageWorld.pages 1).current) ∧
    (mainRun twoPageWorld 1 10).pagesDone = 1 ∧
    (handle_pagination (twoPageWorld.pages 1)
      (extract_table_data (twoPageWorld.pages 1).current)).1 = true :=
  ⟨(C7_single_page_cap twoPageWorld 10 (by decide) (by decide)).1,
   (C7_single_page_cap twoPageWorld 10 (by decide) (by decide)).2.1,
   (C7_single_page_cap twoPageWorld 10 (by decide) (by decide)).2.2,
   by decide⟩

/-! C8 — final persistence. -/

/-- C8, counterexample: a run whose first page has no qualifying rows
terminates with an empty accumulator and performs no write at all
(`main` line 229 guards the final save with `if all_data:`), refuting
"one more full write is performed on every terminal exit". -/
theorem C8_counterexample :
    (mainRun c8EmptyWorld 3 10).saves = [] ∧
    (mainRun c8EmptyWorld 3 10).data = [] :=
  ⟨by decide, by decide⟩

/-- C8, amended: on every terminal exit of the loop — normal or unwound
by an unexpected exception — one more full write of the accumulated
record set is performed exactly when that set is non-empty (and it is the
last write, containing the entire accumulation); with an empty set no
write happens at all. -/
theorem C8_final_write_iff_nonempty (w : RunWorld) (mp sf : Nat) :
    ((mainRun w mp sf).data ≠ [] →
      (mainRun w mp sf).saves.getLast? = some ((mainRun w mp sf).data)) ∧
    ((mainRun w mp sf).data = [] → (mainRun w mp sf).saves = []) := by
  constructor
  · intro hne
    have hne' : ¬((harvestLoop w sf mp (mp + 1) 1 [] []).data = []) := by
      rw [← mainRun_data]; exact hne
    have hsv : (mainRun w mp sf).saves =
        (harvestLoop w sf mp (mp + 1) 1 [] []).saves ++
          [(harvestLoop w sf mp (mp + 1) 1 [] []).data] := by
      simp only [mainRun]
      rw [if_neg hne']
    rw [hsv, mainRun_data, List.getLast?_concat]
  · intro hz
    have hz' : (harvestLoop w sf mp (mp + 1) 1 [] []).data = [] := by
      rw [← mainRun_data]; exact hz
    have hs := (harvestLoop_saves_of_nil w sf mp (mp + 1) 1 [] [] hz').2
    simp only [mainRun]
    rw [if_pos hz']
    exact hs

/-- C8, witness: the amended theorem applied to a run that crashes on
page 2 after harvesting page 1 — the exception path still ends with a
final write of everything accumulated. -/
theorem C8_final_write_iff_nonempty_witness :
    (mainRun c8CrashWorld 5 10).exc = true ∧
    (mainRun c8CrashWorld 5 10).saves.getLast? =
      some ((mainRun c8CrashWorld 5 10).data) :=
  ⟨by decide, (C8_final_write_iff_nonempty c8CrashWorld 5 10).1 (by decide)⟩

/-! C10 — pagination's returned records are never appended. -/

/-- C10: the accumulated sequence is exactly the incoming accumulator
followed by the top-of-iteration extractions — the record list returned
by `handle_pagination` is never appended as such; and when an advance at
page `pn` succeeds returning `nd`, with the next iteration's page showing
that same content, `nd`'s records enter the accumulation exactly once, as
the single block contributed by page `pn + 1`'s own top-of-loop
extraction (the page having also been extracted, and discarded, inside
`handle_pagination`). -/
theorem C10_new_records_from_top_extraction :
    (∀ (w : RunWorld) (sf mp fuel pn : Nat) (data : List MemberRecord)
        (saves : List (List MemberRecord)),
      (harvestLoop w sf mp fuel pn data saves).data =
        data ++ ((List.range (harvestLoop w sf mp fuel pn data saves).pagesDone).map
          (fun i => extract_table_data (w.pages (pn + i)).current)).flatten) ∧
    (∀ (w : RunWorld) (sf mp fuel pn : Nat) (data : List MemberRecord)
        (saves : List (List MemberRecord)) (nd : List MemberRecord),
      sf ≠ 0 → w.crashAt ≠ some pn → w.crashAt ≠ some (pn + 1) →
      pn + 1 ≤ mp →
      extract_table_data (w.pages pn).current ≠ [] →
      handle_pagination (w.pages pn) (extract_table_data (w.pages pn).current)
        = (true, some nd) →
      extract_table_data (w.pages (pn + 1)).current = nd →
      ∃ rest, (harvestLoop w sf mp (fuel + 2) pn data saves).data =
        data ++ extract_table_data (w.pages pn).current ++ nd ++ rest) := by
  constructor
  · exact fun w sf mp fuel pn data saves =>
      harvestLoop_data_eq w sf mp fuel pn data saves
  · intro w sf mp fuel pn data saves nd hsf hc1 hc2 hmp hpd hadv hcons
    have h1 : pn ≤ mp := Nat.le_of_succ_le hmp
    have h5 : (handle_pagination (w.pages pn)
        (extract_table_data (w.pages pn).current)).1 = true := by rw [hadv]
    have hnd : nd ≠ [] := handle_pagination_success_nonempty _ _ _ hadv
    have hpd2 : extract_table_data (w.pages (pn + 1)).current ≠ [] := by
      rw [hcons]; exact hnd
    have e1 : (harvestLoop w sf mp (fuel + 1 + 1) pn data saves).data =
        (harvestLoop w sf mp (fuel + 1) (pn + 1)
          (data ++ extract_table_data (w.pages pn).current)
          (if pn % sf = 0
            then saves ++ [data ++ extract_table_data (w.pages pn).current]
            else saves)).data := by
      simp [harvestLoop, h1, hc1, hpd, hsf, h5]
    by_cases h5b : (handle_pagination (w.pages (pn + 1))
        (extract_table_data (w.pages (pn + 1)).current)).1 = true
    · have e2 : (harvestLoop w sf mp (fuel + 1) (pn + 1)
          (data ++ extract_table_data (w.pages pn).current)
          (if pn % sf = 0
            then saves ++ [data ++ extract_table_data (w.pages pn).current]
            else saves)).data =
          (harvestLoop w sf mp fuel (pn + 1 + 1)
            ((data ++ extract_table_data (w.pages pn).current) ++
              extract_table_data (w.pages (pn + 1)).current)
            (if (pn + 1) % sf = 0
              then (if pn % sf = 0
                then saves ++ [data ++ extract_table_data (w.pages pn).current]
                else saves) ++
                  [(data ++ extract_table_data (w.pages pn).current) ++
                    extract_table_data (w.pages (pn + 1)).current]
              else (if pn % sf = 0
                then saves ++ [data ++ extract_table_data (w.pages pn).current]
                else saves))).data := by
        simp [harvestLoop, hmp, hc2, hpd2, hsf, h5b]
      obtain ⟨tail, htail⟩ := harvestLoop_data_extends w sf mp fuel (pn + 1 + 1)
        ((data ++ extract_table_data (w.pages pn).current) ++
          extract_table_data (w.pages (pn + 1)).current)
        (if (pn + 1) % sf = 0
          then (if pn % sf = 0
            then saves ++ [data ++ extract_table_data (w.pages pn).current]
            else saves) ++
              [(data ++ extract_table_data (w.pages pn).current) ++
                extract_table_data (w.pages (pn + 1)).current]
          else (if pn % sf = 0
            then saves ++ [data ++ extract_table_data (w.pages pn).current]
            else saves))
      refine ⟨tail, ?_⟩
      rw [e1, e2, htail, hcons]
    · have e2 : (harvestLoop w sf mp (fuel + 1) (pn + 1)
          (data ++ extract_table_data (w.pages pn).current)
          (if pn % sf = 0
            then saves ++ [data ++ extract_table_data (w.pages pn).current]
            else saves)).data =
          (data ++ extract_table_data (w.pages pn).current) ++
            extract_table_data (w.pages (pn + 1)).current := by
        simp [harvestLoop, hmp, hc2, hpd2, hsf, h5b]
      refine ⟨[], ?_⟩
      rw [e1, e2, hcons]
      simp [List.append_assoc]

/-- C10, witness: the theorem applied to the two-page world — page 2's
records appear exactly once in the accumulation even though page 2 was
extracted both inside `handle_pagination` and at the top of the next
iteration. -/
theorem C10_new_records_from_top_extraction_witness :
    ∃ rest, (harvestLoop twoPageWorld 10 2 2 1 [] []).data =
      [] ++ extract_table_data (twoPageWorld.pages 1).current ++
        [⟨"B", "g", "h", "i"⟩] ++ rest :=
  C10_new_records_from_top_extraction.2 twoPageWorld 10 2 0 1 [] []
    [⟨"B", "g", "h", "i"⟩] (by decide) (by decide) (by decide) (by decide)
    (by decide) (by decide) (by decide)

end CpaScraper

